import Mathlib

/-!
Verification of the game-components repository: shallow embedding of the
cellular-automaton cell (living-wccell), the physics body (convgame-object)
and the Tetris engine (game-tetris), with theorems settling the frozen
claims about them.  All numeric state is modelled exactly: JS numbers that
only ever hold integers become Nat/Int, general JS numbers become Rat.
Event dispatches are modelled as explicit event lists returned next to the
updated state.
-/

namespace LivingCell

/-- Birth/survival rule set, as the JS object with birth and survival arrays. -/
structure CellRules where
  birth : List Nat
  survival : List Nat
deriving DecidableEq

/-- Conway rules B3/S23, the CONWAY_RULES constant of the source. -/
def conwayRules : CellRules := { birth := [3], survival := [2, 3] }

/-- Events dispatched by the cell component that the claims mention. -/
inductive CEvent
  | stateChange (alive previousAlive : Bool) (x y : Int) (age generation : Nat)
deriving DecidableEq

/-- The observable state of a LivingWccell instance. -/
structure Cell where
  alive : Bool
  x : Int
  y : Int
  generation : Nat
  age : Nat
  rules : CellRules
  neighborCount : Nat
  nextState : Option Bool
deriving DecidableEq

/-- calculateNextState: records the neighbor count, computes and stores the
pending next state from the survival rules (live cell) or the birth rules
(dead cell) and returns it.  The source dispatches no event here; the empty
event list makes that explicit. -/
def calculateNextState (c : Cell) (aliveNeighbors : Nat) : Cell × Bool × List CEvent :=
  let ns : Bool :=
    if c.alive then c.rules.survival.contains aliveNeighbors
    else c.rules.birth.contains aliveNeighbors
  ({ c with neighborCount := aliveNeighbors, nextState := some ns }, ns, [])

/-- dispatchStateChange payload: alive is the new value and previousAlive is
its negation, exactly as the source computes it. -/
def stateChangeEvent (c : Cell) : CEvent :=
  CEvent.stateChange c.alive (!c.alive) c.x c.y c.age c.generation

/-- applyNextState: no-op when no pending state is stored; otherwise commits
the pending state, updates the age (born to 1, survived to age+1, died to 0),
clears the pending state and emits a state-change event iff alive changed. -/
def applyNextState (c : Cell) : Cell × List CEvent :=
  match c.nextState with
  | none => (c, [])
  | some ns =>
    let previousState := c.alive
    let age1 : Nat :=
      if ns then (if previousState then c.age + 1 else 1) else 0
    let c1 : Cell := { c with alive := ns, age := age1, nextState := none }
    if previousState != ns then (c1, [stateChangeEvent c1]) else (c1, [])

end LivingCell

namespace ConvGame

/-- The four boundary edges named by boundary-hit events. -/
inductive Edge
  | left
  | right
  | top
  | bottom
deriving DecidableEq

/-- Events dispatched by the physics object that the claims mention. -/
inductive PEvent
  | boundaryHit (edge : Edge) (x y : Rat)
  | positionChange (x y previousX previousY velocityX velocityY : Rat)
deriving DecidableEq

/-- Boundary limits; a missing field falls back to the destructuring default
of the source (minX = 0, minY = 0, maxX = Infinity, maxY = Infinity).  A
missing max is modelled as none: the comparison against Infinity is always
false, so that branch is simply never taken. -/
structure PBounds where
  minX : Option Rat
  maxX : Option Rat
  minY : Option Rat
  maxY : Option Rat
deriving DecidableEq

/-- The physics state of a ConvgameObject instance. -/
structure PBody where
  x : Rat
  y : Rat
  width : Rat
  height : Rat
  velocityX : Rat
  velocityY : Rat
  mass : Rat
  friction : Rat
  restitution : Rat
  isStatic : Bool
  bounds : Option PBounds
  accelerationX : Rat
  accelerationY : Rat
deriving DecidableEq

/-- Center x coordinate: position plus half extent, as getCenter. -/
def centerX (b : PBody) : Rat := b.x + b.width / 2

/-- Center y coordinate: position plus half extent, as getCenter. -/
def centerY (b : PBody) : Rat := b.y + b.height / 2

/-- True when a value lies strictly past an optional max bound; a missing
bound stands for Infinity and is never exceeded. -/
def pastMax (maxBound : Option Rat) (v : Rat) : Bool :=
  match maxBound with
  | none => false
  | some m => decide (v > m)

/-- checkBounds: each axis is clamped and reflected independently, but the
hit edge is recorded in a single variable (the y axis overwrites the x axis),
so at most one boundary-hit event is dispatched, carrying the final
position. -/
def checkBounds (b : PBody) : PBody × List PEvent :=
  match b.bounds with
  | none => (b, [])
  | some bd =>
    let r1 : PBody × Option Edge :=
      if b.x < bd.minX.getD 0 then
        ({ b with x := bd.minX.getD 0,
                  velocityX := -b.velocityX * b.restitution }, some Edge.left)
      else if pastMax bd.maxX (b.x + b.width) then
        ({ b with x := bd.maxX.getD 0 - b.width,
                  velocityX := -b.velocityX * b.restitution }, some Edge.right)
      else (b, none)
    let b1 := r1.1
    let r2 : PBody × Option Edge :=
      if b1.y < bd.minY.getD 0 then
        ({ b1 with y := bd.minY.getD 0,
                   velocityY := -b1.velocityY * b1.restitution }, some Edge.top)
      else if pastMax bd.maxY (b1.y + b1.height) then
        ({ b1 with y := bd.maxY.getD 0 - b1.height,
                   velocityY := -b1.velocityY * b1.restitution }, some Edge.bottom)
      else (b1, r1.2)
    match r2.2 with
    | some e => (r2.1, [PEvent.boundaryHit e r2.1.x r2.1.y])
    | none => (r2.1, [])

/-- update: no-op when static; otherwise velocity += acceleration*dt, then
velocity *= friction, then position += velocity*dt, then acceleration is
reset, then the bounds check runs (a no-op when bounds is unset, matching
the guarded call in the source), and finally a position-change event fires
iff the position changed. -/
def update (b : PBody) (deltaTime : Rat) : PBody × List PEvent :=
  if b.isStatic then (b, []) else
  let previousX := b.x
  let previousY := b.y
  let vX := (b.velocityX + b.accelerationX * deltaTime) * b.friction
  let vY := (b.velocityY + b.accelerationY * deltaTime) * b.friction
  let b1 : PBody :=
    { b with velocityX := vX, velocityY := vY,
             x := b.x + vX * deltaTime, y := b.y + vY * deltaTime,
             accelerationX := 0, accelerationY := 0 }
  let r := checkBounds b1
  let posEvents : List PEvent :=
    if r.1.x ≠ previousX ∨ r.1.y ≠ previousY then
      [PEvent.positionChange r.1.x r.1.y previousX previousY
        r.1.velocityX r.1.velocityY]
    else []
  (r.1, r.2 ++ posEvents)

/-- The integration portion of update (velocity, position, acceleration
reset), factored out so the theorems can name the pre-bounds-check state. -/
def integrated (b : PBody) (dt : Rat) : PBody :=
  let vX := (b.velocityX + b.accelerationX * dt) * b.friction
  let vY := (b.velocityY + b.accelerationY * dt) * b.friction
  { b with velocityX := vX, velocityY := vY,
           x := b.x + vX * dt, y := b.y + vY * dt,
           accelerationX := 0, accelerationY := 0 }

/-- applyForce: accumulates acceleration += force / mass; no-op when static. -/
def applyForce (b : PBody) (forceX forceY : Rat) : PBody :=
  if b.isStatic then b
  else { b with accelerationX := b.accelerationX + forceX / b.mass,
                accelerationY := b.accelerationY + forceY / b.mass }

/-- resolveCollision, with the value of Math.sqrt(dx*dx + dy*dy) supplied as
the oracle argument dist (square roots are not rational in general);
theorems constrain it by dist * dist = dx^2 + dy^2 and 0 ≤ dist.  Every
other step is the source verbatim: skip when both static, skip when the
distance is zero, skip when the relative velocity along the normal is
positive, otherwise apply the impulse with the one-sided total mass. -/
def resolveCollision (a b : PBody) (dist : Rat) : PBody × PBody :=
  if a.isStatic && b.isStatic then (a, b) else
  let dx := centerX b - centerX a
  let dy := centerY b - centerY a
  if dist = 0 then (a, b) else
  let nx := dx / dist
  let ny := dy / dist
  let dvx := a.velocityX - b.velocityX
  let dvy := a.velocityY - b.velocityY
  let dvn := dvx * nx + dvy * ny
  if dvn > 0 then (a, b) else
  let restitution := min a.restitution b.restitution
  let totalMass : Rat :=
    if a.isStatic then b.mass else if b.isStatic then a.mass else a.mass + b.mass
  let impulse := -(1 + restitution) * dvn / totalMass
  let a1 : PBody :=
    if a.isStatic then a else
      { a with velocityX := a.velocityX - impulse * b.mass * nx,
               velocityY := a.velocityY - impulse * b.mass * ny }
  let b1 : PBody :=
    if b.isStatic then b else
      { b with velocityX := b.velocityX + impulse * a.mass * nx,
               velocityY := b.velocityY + impulse * a.mass * ny }
  (a1, b1)

/-- Recognizer for boundary-hit events, used to count them per update. -/
def isBoundaryEvent : PEvent → Bool
  | PEvent.boundaryHit _ _ _ => true
  | _ => false

/-- Recognizer for position-change events. -/
def isPositionChangeEvent : PEvent → Bool
  | PEvent.positionChange _ _ _ _ _ _ => true
  | _ => false

end ConvGame

namespace Tetris

/-- A board row: one optional color token per column (null means empty). -/
abbrev Row := List (Option String)

/-- The board: height rows of width cells. -/
abbrev Board := List Row

/-- A tetromino instance: symbolic kind, 0/1 shape matrix, color token. -/
structure Piece where
  ptype : String
  shape : List (List Nat)
  color : String
deriving DecidableEq

/-- Events dispatched by the Tetris engine that the claims mention. -/
inductive TEvent
  | gameStart (level : Nat) (speed : Int)
  | gameOver (score level lines : Nat)
  | lineClear (lines totalLines score : Nat)
  | scoreUpdate (score previousScore pointsAdded : Nat)
  | levelUp (level : Nat) (speed : Int) (lines : Nat)
  | pieceLock (piece : String) (x y : Int)
deriving DecidableEq

/-- The engine state of a GameTetris instance.  loopRunning models whether
an interval timer is installed (gameLoop not null). -/
structure GameState where
  width : Nat
  height : Nat
  speed : Nat
  score : Nat
  level : Nat
  lines : Nat
  paused : Bool
  gameOver : Bool
  gameStarted : Bool
  board : Board
  currentPiece : Option Piece
  currentX : Int
  currentY : Int
  nextPiece : Option Piece
  loopRunning : Bool
  linesForNextLevel : Nat
deriving DecidableEq

/-- Board lookup at integer coordinates; out-of-range reads give none, as a
JS index miss gives undefined (falsy, like an empty cell). -/
def boardCell (board : Board) (y x : Int) : Option String :=
  if 0 ≤ y ∧ 0 ≤ x then (board.getD y.toNat []).getD x.toNat none else none

/-- Shape lookup: 0 outside the matrix (a JS index miss is falsy). -/
def shapeCell (shape : List (List Nat)) (row col : Nat) : Nat :=
  (shape.getD row []).getD col 0

/-- isValidPosition: every occupied shape cell must map inside the side
walls and above the floor, and cells on the board (row ≥ 0) must land on an
empty board cell; rows above the board are exempt from the occupancy
check. -/
def isValidPosition (board : Board) (width height : Nat)
    (shape : List (List Nat)) (x y : Int) : Bool :=
  (List.range shape.length).all fun row =>
    (List.range (shape.getD row []).length).all fun col =>
      if shapeCell shape row col ≠ 0 then
        let newX : Int := x + col
        let newY : Int := y + row
        if newX < 0 ∨ (width : Int) ≤ newX ∨ (height : Int) ≤ newY then false
        else if 0 ≤ newY ∧ (boardCell board newY newX).isSome then false
        else true
      else true

/-- moveDown: advance one row when the shifted position is valid; the Bool
reports whether the move happened. -/
def moveDown (s : GameState) : GameState × Bool :=
  match s.currentPiece with
  | none => (s, false)
  | some p =>
    if isValidPosition s.board s.width s.height p.shape s.currentX (s.currentY + 1) then
      ({ s with currentY := s.currentY + 1 }, true)
    else (s, false)

/-- Write one board cell (both indices already checked in range). -/
def setBoardCell (board : Board) (y x : Nat) (v : Option String) : Board :=
  board.set y ((board.getD y []).set x v)

/-- lockPiece: writes the piece color into every occupied cell that lands in
range, then dispatches the piece-lock event with kind and anchor. -/
def lockPiece (s : GameState) : GameState × List TEvent :=
  match s.currentPiece with
  | none => (s, [])
  | some p =>
    let board1 := (List.range p.shape.length).foldl (fun bd row =>
      (List.range (p.shape.getD row []).length).foldl (fun bd2 col =>
        if shapeCell p.shape row col ≠ 0 then
          let y : Int := s.currentY + row
          let x : Int := s.currentX + col
          if 0 ≤ y ∧ y < (s.height : Int) ∧ 0 ≤ x ∧ x < (s.width : Int) then
            setBoardCell bd2 y.toNat x.toNat (some p.color)
          else bd2
        else bd2) bd) s.board
    ({ s with board := board1 },
      [TEvent.pieceLock p.ptype s.currentX s.currentY])

/-- A row is full iff every cell is non-empty. -/
def isFullRow (row : Row) : Bool := row.all fun cell => cell.isSome

/-- The full-row indices as the source collects them: scanning from the
bottom row upward, so the list is descending. -/
def fullRowIndices (board : Board) (height : Nat) : List Nat :=
  (List.range height).reverse.filter fun y => isFullRow (board.getD y [])

/-- The removal loop of clearLines: for each collected index, splice that
row out and unshift a fresh empty row on top. -/
def removeLines (board : Board) (width : Nat) (linesToClear : List Nat) : Board :=
  linesToClear.foldl
    (fun bd lineY => List.replicate width (none : Option String) :: bd.eraseIdx lineY)
    board

/-- The line-clear score table for 0..4 simultaneous lines.  The source
indexes the array directly; a tetromino occupies at most four rows, so the
index never exceeds 4 in a reachable state. -/
def lineScores : List Nat := [0, 100, 300, 500, 800]

/-- getCurrentSpeed: max(100, speed - (level-1)*80), computed over Int. -/
def getCurrentSpeed (s : GameState) : Int :=
  max 100 ((s.speed : Int) - ((s.level : Int) - 1) * 80)

/-- addScore: adds the points and always dispatches a score-update event
with new total, previous total and delta. -/
def addScore (s : GameState) (points : Nat) : GameState × List TEvent :=
  let previousScore := s.score
  let s1 := { s with score := s.score + points }
  (s1, [TEvent.scoreUpdate s1.score previousScore points])

/-- levelUp: next level, threshold + 10, restart the loop at the new speed,
dispatch the level-up event. -/
def levelUp (s : GameState) : GameState × List TEvent :=
  let s1 := { s with level := s.level + 1,
                     linesForNextLevel := s.linesForNextLevel + 10,
                     loopRunning := true }
  (s1, [TEvent.levelUp s1.level (getCurrentSpeed s1) s1.lines])

/-- clearLines: collect full rows bottom-to-top, remove them (splice plus
unshift per index), award the table score times the level, bump the lines
counter, dispatch line-clear, and level up when the threshold is reached. -/
def clearLines (s : GameState) : GameState × List TEvent :=
  let linesToClear := fullRowIndices s.board s.height
  if linesToClear.length = 0 then (s, []) else
  let s1 := { s with board := removeLines s.board s.width linesToClear }
  let r2 := addScore s1 (lineScores.getD linesToClear.length 0 * s1.level)
  let s3 := { r2.1 with lines := r2.1.lines + linesToClear.length }
  let clearEvents :=
    r2.2 ++ [TEvent.lineClear linesToClear.length s3.lines s3.score]
  if s3.linesForNextLevel ≤ s3.lines then
    let r4 := levelUp s3
    (r4.1, clearEvents ++ r4.2)
  else (s3, clearEvents)

/-- endGame: set game over, stop the loop, dispatch game-over with the
final score, level and lines. -/
def endGame (s : GameState) : GameState × List TEvent :=
  let s1 := { s with gameOver := true, loopRunning := false }
  (s1, [TEvent.gameOver s1.score s1.level s1.lines])

/-- The spawn column: the piece horizontally centered over the board,
floor((width - shapeColumns) / 2). -/
def spawnX (width : Nat) (p : Piece) : Int :=
  Int.ediv ((width : Int) - ((p.shape.getD 0 []).length : Int)) 2

/-- spawnPiece: promote the next piece, store the externally chosen random
piece as the new next piece, center the current piece at y = 0, and end the
game when that centered position is not valid.  The source would throw when
nextPiece is null; that case is unreachable in a started game and is
modelled as a no-op. -/
def spawnPiece (s : GameState) (randomPiece : Piece) : GameState × List TEvent :=
  match s.nextPiece with
  | none => (s, [])
  | some p =>
    let cx := spawnX s.width p
    let s1 := { s with currentPiece := some p, nextPiece := some randomPiece,
                       currentX := cx, currentY := 0 }
    if isValidPosition s1.board s1.width s1.height p.shape cx 0 then (s1, [])
    else endGame s1

/-- tick: skipped entirely while paused or over; otherwise move down, and on
a blocked move lock the piece, clear lines and spawn the next piece. -/
def tick (s : GameState) (randomPiece : Piece) : GameState × List TEvent :=
  if s.paused || s.gameOver then (s, []) else
  let r := moveDown s
  if r.2 then (r.1, []) else
  let r1 := lockPiece r.1
  let r2 := clearLines r1.1
  let r3 := spawnPiece r2.1 randomPiece
  (r3.1, r1.2 ++ r2.2 ++ r3.2)

/-- rotateMatrix: the index-for-index translation of the source loops;
rotated[col][rows-1-row] = matrix[row][col]. -/
def rotateMatrix (matrix : List (List Nat)) : List (List Nat) :=
  let rows := matrix.length
  let cols := (matrix.getD 0 []).length
  (List.range cols).map fun col =>
    (List.range rows).map fun j => (matrix.getD (rows - 1 - j) []).getD col 0

/-- The wall-kick offsets, in the order the source tries them. -/
def kicks : List Int := [-1, 1, -2, 2]

/-- rotate: commit the rotated shape in place when valid, otherwise commit
it together with the first kick offset that validates, otherwise change
nothing.  The for-loop with early return is List.find? over the offsets. -/
def rotate (s : GameState) : GameState :=
  match s.currentPiece with
  | none => s
  | some p =>
    let rotated := rotateMatrix p.shape
    if isValidPosition s.board s.width s.height rotated s.currentX s.currentY then
      { s with currentPiece := some { p with shape := rotated } }
    else
      match kicks.find? (fun kick =>
          isValidPosition s.board s.width s.height rotated (s.currentX + kick) s.currentY) with
      | some kick =>
        { s with currentPiece := some { p with shape := rotated },
                 currentX := s.currentX + kick }
      | none => s

/-- The hard-drop descent count: successive down-moves while valid.  The
source while-loop terminates because an occupied shape cell cannot pass the
floor; the fuel argument makes the recursion structural and is chosen large
enough for every run that terminates (see dropSteps_eq). -/
def dropSteps (board : Board) (width height : Nat) (shape : List (List Nat))
    (x : Int) : Int → Nat → Nat
  | _, 0 => 0
  | y, fuel + 1 =>
    if isValidPosition board width height shape x (y + 1) then
      dropSteps board width height shape x (y + 1) fuel + 1
    else 0

/-- Fuel bound for the hard-drop loop. -/
def dropFuel (s : GameState) (p : Piece) : Nat := s.height + p.shape.length + 1

/-- hardDrop: advance downward while valid, award 2 points per cell via
addScore, then lock, clear lines and spawn. -/
def hardDrop (s : GameState) (randomPiece : Piece) : GameState × List TEvent :=
  match s.currentPiece with
  | none => (s, [])
  | some p =>
    let n := dropSteps s.board s.width s.height p.shape s.currentX s.currentY
      (dropFuel s p)
    let s1 := { s with currentY := s.currentY + n }
    let r0 := addScore s1 (n * 2)
    let r1 := lockPiece r0.1
    let r2 := clearLines r1.1
    let r3 := spawnPiece r2.1 randomPiece
    (r3.1, r0.2 ++ r1.2 ++ r2.2 ++ r3.2)

/-- The soft-drop branch of the key handler: when the down-move succeeds,
award one point; otherwise nothing changes. -/
def softDrop (s : GameState) : GameState × List TEvent :=
  let r := moveDown s
  if r.2 then addScore r.1 1 else (r.1, [])

end Tetris

namespace LivingCell

/-- A dead cell with the default Conway rules, in its constructed state. -/
def c5cell : Cell :=
  { alive := false, x := 0, y := 0, generation := 0, age := 0,
    rules := conwayRules, neighborCount := 0, nextState := none }

/-- A dead Conway cell with a pending birth stored. -/
def c6cell : Cell := { c5cell with nextState := some true }

end LivingCell

namespace ConvGame

/-- Bounds with both minima at 0 and no maxima. -/
def cornerBounds : PBounds :=
  { minX := some 0, maxX := none, minY := some 0, maxY := none }

/-- A body that crosses both the left and the top bound in one update. -/
def c2Body : PBody :=
  { x := 2, y := 2, width := 5, height := 5, velocityX := -5, velocityY := -5,
    mass := 1, friction := 1, restitution := 1, isStatic := false,
    bounds := some cornerBounds, accelerationX := 0, accelerationY := 0 }

/-- Bounds whose minY is far below, so only the left bound can be hit. -/
def c3Bounds : PBounds :=
  { minX := some 0, maxX := none, minY := some (-100), maxY := none }

/-- A body that hits the left bound during update, reflecting its velocity. -/
def c3Body : PBody :=
  { x := 2, y := 0, width := 5, height := 5, velocityX := -5, velocityY := 0,
    mass := 1, friction := 1, restitution := 1/2, isStatic := false,
    bounds := some c3Bounds, accelerationX := 0, accelerationY := 0 }

/-- A bounds-free body with nonzero acceleration and fractional friction. -/
def c3Free : PBody :=
  { x := 0, y := 0, width := 10, height := 10, velocityX := 3, velocityY := 4,
    mass := 2, friction := 1/2, restitution := 1, isStatic := false,
    bounds := none, accelerationX := 1, accelerationY := 0 }

/-- First body of a colliding pair: center (1,1), at rest, mass 1. -/
def bodyA : PBody :=
  { x := 0, y := 0, width := 2, height := 2, velocityX := 0, velocityY := 0,
    mass := 1, friction := 1, restitution := 1/2, isStatic := false,
    bounds := none, accelerationX := 0, accelerationY := 0 }

/-- Second body of a colliding pair: center (5,1), moving away at the back,
mass 3; the relative velocity along the normal is -2, so the impulse branch
runs. -/
def bodyB : PBody :=
  { x := 4, y := 0, width := 2, height := 2, velocityX := 2, velocityY := 0,
    mass := 3, friction := 1, restitution := 1, isStatic := false,
    bounds := none, accelerationX := 0, accelerationY := 0 }

end ConvGame

namespace Tetris

/-- The O tetromino of the source. -/
def pieceO : Piece := { ptype := "O", shape := [[1, 1], [1, 1]], color := "#f0f000" }

/-- The T tetromino of the source. -/
def pieceT : Piece :=
  { ptype := "T", shape := [[0, 1, 0], [1, 1, 1], [0, 0, 0]], color := "#a000f0" }

/-- A 3-row, 2-column game with the bottom two rows full: the smallest state
exhibiting the multi-row clearing defect. -/
def c1State : GameState :=
  { width := 2, height := 3, speed := 1000, score := 0, level := 1, lines := 0,
    paused := false, gameOver := false, gameStarted := true,
    board := [[none, none], [some "a", some "a"], [some "b", some "b"]],
    currentPiece := none, currentX := 0, currentY := 0, nextPiece := none,
    loopRunning := true, linesForNextLevel := 10 }

/-- An empty 3-row, 2-column game holding an O piece at the top: the hard
drop advances exactly one cell. -/
def hardState : GameState :=
  { width := 2, height := 3, speed := 1000, score := 0, level := 1, lines := 0,
    paused := false, gameOver := false, gameStarted := true,
    board := [[none, none], [none, none], [none, none]],
    currentPiece := some pieceO, currentX := 0, currentY := 0,
    nextPiece := some pieceO, loopRunning := true, linesForNextLevel := 10 }

/-- An empty 4 by 4 game holding a T piece, where the in-place rotation is
valid. -/
def rotState : GameState :=
  { width := 4, height := 4, speed := 1000, score := 0, level := 1, lines := 0,
    paused := false, gameOver := false, gameStarted := true,
    board := List.replicate 4 (List.replicate 4 none),
    currentPiece := some pieceT, currentX := 0, currentY := 0,
    nextPiece := some pieceO, loopRunning := true, linesForNextLevel := 10 }

/-- A 2 by 2 game whose board is completely full, so the next spawn fails. -/
def blockedState : GameState :=
  { width := 2, height := 2, speed := 1000, score := 7, level := 2, lines := 3,
    paused := false, gameOver := false, gameStarted := true,
    board := [[some "x", some "x"], [some "x", some "x"]],
    currentPiece := none, currentX := 0, currentY := 0,
    nextPiece := some pieceO, loopRunning := true, linesForNextLevel := 10 }

/-- A finished game, used to observe that ticks are skipped. -/
def overState : GameState := { blockedState with gameOver := true }

end Tetris

/-!
Theorems settling the claims, with shared helper lemmas first.
-/

namespace LivingCell

/-- C5: calculateNextState stores the neighbor count, computes and stores
(without applying) the pending next state, survival membership for a live
cell and birth membership for a dead cell, returns that value, and leaves
alive, age, generation and the rules untouched while emitting no event; with
the Conway rules the computed state of a dead cell is alive iff the count is
3, and of a live cell iff the count is 2 or 3. -/
theorem C5_calculateNextState_spec (c : Cell) (n : Nat) :
    (calculateNextState c n).1.neighborCount = n ∧
    (calculateNextState c n).1.nextState = some (calculateNextState c n).2.1 ∧
    ((calculateNextState c n).2.1 =
      if c.alive then c.rules.survival.contains n else c.rules.birth.contains n) ∧
    (calculateNextState c n).1.alive = c.alive ∧
    (calculateNextState c n).1.age = c.age ∧
    (calculateNextState c n).1.generation = c.generation ∧
    (calculateNextState c n).1.rules = c.rules ∧
    (calculateNextState c n).2.2 = [] ∧
    (c.rules = conwayRules →
      ((c.alive = false → ((calculateNextState c n).2.1 = true ↔ n = 3)) ∧
       (c.alive = true → ((calculateNextState c n).2.1 = true ↔ n = 2 ∨ n = 3)))) := by
  refine ⟨rfl, rfl, rfl, rfl, rfl, rfl, rfl, rfl, ?_⟩
  intro hr
  exact ⟨fun ha => by simp [calculateNextState, ha, hr, conwayRules],
         fun ha => by simp [calculateNextState, ha, hr, conwayRules]⟩

/-- Witness for C5: a dead Conway cell with three live neighbors computes a
birth. -/
theorem C5_calculateNextState_witness :
    (calculateNextState c5cell 3).2.1 = true ∧
    (calculateNextState c5cell 3).1.neighborCount = 3 := by
  have h := C5_calculateNextState_spec c5cell 3
  exact ⟨((h.2.2.2.2.2.2.2.2 rfl).1 rfl).mpr rfl, h.1⟩

/-- C6: applyNextState with no pending state is a no-op that emits nothing;
with a pending state it commits it, updates the age (born to 1, survived to
age + 1, died to 0), clears the pending state, leaves position and
generation untouched and emits a state-change event exactly when alive
changed, carrying new and previous alive, position, age and generation. -/
theorem C6_applyNextState_spec (c : Cell) :
    (c.nextState = none → applyNextState c = (c, [])) ∧
    (∀ ns : Bool, c.nextState = some ns →
      (applyNextState c).1.alive = ns ∧
      (applyNextState c).1.age = (if ns then (if c.alive then c.age + 1 else 1) else 0) ∧
      (applyNextState c).1.nextState = none ∧
      (applyNextState c).1.x = c.x ∧ (applyNextState c).1.y = c.y ∧
      (applyNextState c).1.generation = c.generation ∧
      (applyNextState c).2 =
        (if c.alive ≠ ns then
          [CEvent.stateChange ns (!ns) c.x c.y
            (if ns then (if c.alive then c.age + 1 else 1) else 0) c.generation]
         else [])) := by
  constructor
  · intro h
    simp [applyNextState, h]
  · intro ns h
    obtain ⟨al, cx, cy, cgen, cage, crules, cnc, cns⟩ := c
    simp only at h
    subst h
    cases al <;> cases ns <;> simp [applyNextState, stateChangeEvent]

/-- Witness for C6: a fresh cell is a no-op target, and a cell with a
pending birth comes alive at age 1. -/
theorem C6_applyNextState_witness :
    applyNextState c5cell = (c5cell, []) ∧
    (applyNextState c6cell).1.alive = true ∧
    (applyNextState c6cell).1.age = 1 := by
  have h0 := (C6_applyNextState_spec c5cell).1 rfl
  have h := (C6_applyNextState_spec c6cell).2 true rfl
  exact ⟨h0, h.1, by simpa [c6cell, c5cell] using h.2.1⟩

end LivingCell

namespace Tetris

/-- C1: the line-clear step does NOT remove every full row.  On a 3-row
board whose bottom two rows are full, the scan collects indices [2, 1], but
because each splice is followed immediately by an unshift the second index
no longer points at the remaining full row: the final board, though still
of full height, retains one of the originally full rows intact at the
bottom.  This contradicts the claimed invariant that no full row remains
after clearing, for any simultaneous count above one. -/
theorem C1_clearLines_full_row_remains :
    fullRowIndices c1State.board c1State.height = [2, 1] ∧
    (clearLines c1State).1.board.length = c1State.height ∧
    (clearLines c1State).1.board.any isFullRow = true ∧
    (clearLines c1State).1.board.getD 2 [] = [some "a", some "a"] := by
  decide

end Tetris

namespace ConvGame

/-- When checkBounds dispatched no event, it also changed nothing. -/
theorem checkBounds_snd_nil (b : PBody) :
    (checkBounds b).2 = [] → (checkBounds b).1 = b := by
  intro h
  cases hb : b.bounds with
  | none => simp [checkBounds, hb]
  | some bd =>
    by_cases h1 : b.x < bd.minX.getD 0 <;>
    by_cases h2 : pastMax bd.maxX (b.x + b.width) = true <;>
    by_cases h3 : b.y < bd.minY.getD 0 <;>
    by_cases h4 : pastMax bd.maxY (b.y + b.height) = true <;>
      simp [checkBounds, hb, h1, h2, h3, h4] at h ⊢

/-- Every event dispatched by checkBounds is a boundary-hit event. -/
theorem checkBounds_event_kinds (b : PBody) :
    ∀ e ∈ (checkBounds b).2, isBoundaryEvent e = true ∧ isPositionChangeEvent e = false := by
  cases hb : b.bounds with
  | none => simp [checkBounds, hb]
  | some bd =>
    by_cases h1 : b.x < bd.minX.getD 0 <;>
    by_cases h2 : pastMax bd.maxX (b.x + b.width) = true <;>
    by_cases h3 : b.y < bd.minY.getD 0 <;>
    by_cases h4 : pastMax bd.maxY (b.y + b.height) = true <;>
      simp [checkBounds, hb, h1, h2, h3, h4, isBoundaryEvent, isPositionChangeEvent]

/-- checkBounds never touches the accumulated acceleration. -/
theorem checkBounds_preserves (b : PBody) :
    (checkBounds b).1.accelerationX = b.accelerationX ∧
    (checkBounds b).1.accelerationY = b.accelerationY := by
  cases hb : b.bounds with
  | none => simp [checkBounds, hb]
  | some bd =>
    by_cases h1 : b.x < bd.minX.getD 0 <;>
    by_cases h2 : pastMax bd.maxX (b.x + b.width) = true <;>
    by_cases h3 : b.y < bd.minY.getD 0 <;>
    by_cases h4 : pastMax bd.maxY (b.y + b.height) = true <;>
      simp [checkBounds, hb, h1, h2, h3, h4]

/-- For a non-static body, update is integration followed by the bounds
check followed by the conditional position-change event. -/
theorem update_eq (b : PBody) (dt : Rat) (h : b.isStatic = false) :
    update b dt =
      ((checkBounds (integrated b dt)).1,
       (checkBounds (integrated b dt)).2 ++
         (if (checkBounds (integrated b dt)).1.x ≠ b.x ∨
             (checkBounds (integrated b dt)).1.y ≠ b.y then
            [PEvent.positionChange (checkBounds (integrated b dt)).1.x
              (checkBounds (integrated b dt)).1.y b.x b.y
              (checkBounds (integrated b dt)).1.velocityX
              (checkBounds (integrated b dt)).1.velocityY]
          else [])) := by
  simp [update, h, integrated]

/-- C2, counterexample: a body crossing the left and the top bound in the
same update is clamped and reflected on both axes (x becomes 0 with
velocityX flipped to 5), yet the full event list of that update holds a
single boundary-hit event, naming only the top edge — no event names the
left edge, refuting the claim that a notification fires for each edge hit. -/
theorem C2_single_boundary_event_counterexample :
    (update c2Body 1).1.x = 0 ∧ (update c2Body 1).1.velocityX = 5 ∧
    (update c2Body 1).2 = [PEvent.boundaryHit Edge.top 0 0,
                           PEvent.positionChange 0 0 2 2 5 5] := by
  norm_num [update, checkBounds, pastMax, c2Body, cornerBounds]

/-- C2, amended: for a non-static body with bounds whose integrated position
crosses both the left and the top bound, update clamps both axes and
negates-and-scales both velocity components by the restitution, but emits
exactly one boundary-hit notification, naming the top edge (the vertical
check overwrites the horizontal one). -/
theorem C2_boundary_corner_spec (b : PBody) (bd : PBounds) (dt : Rat)
    (hst : b.isStatic = false) (hb : b.bounds = some bd)
    (hx : b.x + (b.velocityX + b.accelerationX * dt) * b.friction * dt < bd.minX.getD 0)
    (hy : b.y + (b.velocityY + b.accelerationY * dt) * b.friction * dt < bd.minY.getD 0) :
    (update b dt).1.x = bd.minX.getD 0 ∧
    (update b dt).1.y = bd.minY.getD 0 ∧
    (update b dt).1.velocityX
      = -((b.velocityX + b.accelerationX * dt) * b.friction) * b.restitution ∧
    (update b dt).1.velocityY
      = -((b.velocityY + b.accelerationY * dt) * b.friction) * b.restitution ∧
    (update b dt).2.filter isBoundaryEvent
      = [PEvent.boundaryHit Edge.top (bd.minX.getD 0) (bd.minY.getD 0)] := by
  rw [update_eq b dt hst]
  have hbb : (integrated b dt).bounds = some bd := by simp [integrated, hb]
  have hx1 : (integrated b dt).x < bd.minX.getD 0 := by simpa [integrated] using hx
  have hy1 : (integrated b dt).y < bd.minY.getD 0 := by simpa [integrated] using hy
  have hcb : checkBounds (integrated b dt)
      = ({ integrated b dt with
            x := bd.minX.getD 0, y := bd.minY.getD 0,
            velocityX := -(integrated b dt).velocityX * (integrated b dt).restitution,
            velocityY := -(integrated b dt).velocityY * (integrated b dt).restitution },
          [PEvent.boundaryHit Edge.top (bd.minX.getD 0) (bd.minY.getD 0)]) := by
    simp only [checkBounds, hbb]
    rw [if_pos hx1]
    simp only
    rw [if_pos hy1]
  rw [hcb]
  refine ⟨rfl, rfl, ?_, ?_, ?_⟩
  · simp [integrated]
  · simp [integrated]
  · rw [List.filter_append]
    have h1 : List.filter isBoundaryEvent
          [PEvent.boundaryHit Edge.top (bd.minX.getD 0) (bd.minY.getD 0)]
        = [PEvent.boundaryHit Edge.top (bd.minX.getD 0) (bd.minY.getD 0)] := by
      simp [isBoundaryEvent]
    rw [h1]
    split <;> simp [isBoundaryEvent]

/-- Witness for C2: the concrete corner-crossing body is clamped to the top
corner with both velocities reflected and one top boundary event. -/
theorem C2_boundary_corner_witness :
    (update c2Body 1).1.y = 0 ∧ (update c2Body 1).1.velocityY = 5 ∧
    (update c2Body 1).2.filter isBoundaryEvent = [PEvent.boundaryHit Edge.top 0 0] := by
  have h := C2_boundary_corner_spec c2Body cornerBounds 1 rfl rfl
    (by norm_num [c2Body, cornerBounds]) (by norm_num [c2Body, cornerBounds])
  refine ⟨?_, ?_, ?_⟩
  · have := h.2.1
    simpa [cornerBounds] using this
  · have := h.2.2.2.1
    rw [this]
    norm_num [c2Body]
  · have := h.2.2.2.2
    simpa [cornerBounds] using this

/-- C3, counterexample: with bounds set and a left-bound hit, the post
update velocity is the reflected, restitution-scaled value 5/2, not
friction times (velocity + acceleration times dt), which is -5 here; the
unconditional velocity formula of the claim fails. -/
theorem C3_velocity_formula_counterexample :
    (update c3Body 1).1.velocityX = 5 / 2 ∧
    c3Body.friction * (c3Body.velocityX + c3Body.accelerationX * 1) = -5 ∧
    (5 / 2 : Rat) ≠ -5 := by
  norm_num [update, checkBounds, pastMax, c3Body, c3Bounds]

/-- C3, amended: a static body is left completely unchanged with no event;
for a non-static body, update resets the acceleration to zero, and whenever
no boundary-hit was emitted (in particular whenever bounds is unset) the
post-update velocity is friction times (velocity + acceleration times dt)
componentwise and the post-update position is the prior position plus that
velocity times dt; a position-change notification is emitted iff the
position changed. -/
theorem C3_update_spec (b : PBody) (dt : Rat) :
    (b.isStatic = true → update b dt = (b, [])) ∧
    (b.isStatic = false →
      (update b dt).1.accelerationX = 0 ∧
      (update b dt).1.accelerationY = 0 ∧
      ((update b dt).2.filter isBoundaryEvent = [] →
        ((update b dt).1.velocityX = b.friction * (b.velocityX + b.accelerationX * dt) ∧
         (update b dt).1.velocityY = b.friction * (b.velocityY + b.accelerationY * dt) ∧
         (update b dt).1.x = b.x + (update b dt).1.velocityX * dt ∧
         (update b dt).1.y = b.y + (update b dt).1.velocityY * dt)) ∧
      (((update b dt).2.filter isPositionChangeEvent ≠ []) ↔
        ((update b dt).1.x ≠ b.x ∨ (update b dt).1.y ≠ b.y))) := by
  constructor
  · intro h
    simp [update, h]
  · intro h
    rw [update_eq b dt h]
    have hpres := checkBounds_preserves (integrated b dt)
    have hkinds := checkBounds_event_kinds (integrated b dt)
    refine ⟨?_, ?_, ?_, ?_⟩
    · simpa [integrated] using hpres.1
    · simpa [integrated] using hpres.2
    · intro hfil
      have hb2 : (checkBounds (integrated b dt)).2 = [] := by
        rw [List.filter_append] at hfil
        have h1 : (checkBounds (integrated b dt)).2.filter isBoundaryEvent
            = (checkBounds (integrated b dt)).2 :=
          List.filter_eq_self.mpr (fun e he => (hkinds e he).1)
        rcases List.append_eq_nil.mp hfil with ⟨ha, _⟩
        rw [h1] at ha
        exact ha
      have hfix := checkBounds_snd_nil (integrated b dt) hb2
      rw [hfix]
      refine ⟨?_, ?_, ?_, ?_⟩ <;> simp [integrated] <;> ring
    · have hfill : ((checkBounds (integrated b dt)).2 ++
          (if (checkBounds (integrated b dt)).1.x ≠ b.x ∨
              (checkBounds (integrated b dt)).1.y ≠ b.y then
             [PEvent.positionChange (checkBounds (integrated b dt)).1.x
               (checkBounds (integrated b dt)).1.y b.x b.y
               (checkBounds (integrated b dt)).1.velocityX
               (checkBounds (integrated b dt)).1.velocityY]
           else [])).filter isPositionChangeEvent =
          (if (checkBounds (integrated b dt)).1.x ≠ b.x ∨
              (checkBounds (integrated b dt)).1.y ≠ b.y then
             [PEvent.positionChange (checkBounds (integrated b dt)).1.x
               (checkBounds (integrated b dt)).1.y b.x b.y
               (checkBounds (integrated b dt)).1.velocityX
               (checkBounds (integrated b dt)).1.velocityY]
           else []) := by
        rw [List.filter_append]
        have h0 : (checkBounds (integrated b dt)).2.filter isPositionChangeEvent = [] :=
          List.filter_eq_nil_iff.mpr (fun e he => by simp [(hkinds e he).2])
        rw [h0]
        split <;> simp [isPositionChangeEvent]
      rw [hfill]
      constructor
      · intro hne
        by_contra hmov
        rw [if_neg hmov] at hne
        exact hne rfl
      · intro hmov
        rw [if_pos hmov]
        simp

/-- Witness for C3: a bounds-free accelerating body follows the integration
formulas and emits a position-change event. -/
theorem C3_update_witness :
    c3Free.isStatic = false ∧
    (update c3Free 2).1.velocityX = 5 / 2 ∧
    (update c3Free 2).1.velocityY = 2 ∧
    (update c3Free 2).1.accelerationX = 0 ∧
    (update c3Free 2).1.x = 5 ∧
    (update c3Free 2).2.filter isPositionChangeEvent ≠ [] := by
  have h := (C3_update_spec c3Free 2).2 rfl
  have hfil : (update c3Free 2).2.filter isBoundaryEvent = [] := by
    norm_num [update, checkBounds, c3Free, isBoundaryEvent, List.filter]
  have hv := h.2.2.1 hfil
  refine ⟨rfl, ?_, ?_, h.1, ?_, ?_⟩
  · rw [hv.1]; norm_num [c3Free]
  · rw [hv.2.1]; norm_num [c3Free]
  · rw [hv.2.2.1, hv.1]; norm_num [c3Free]
  · rw [h.2.2.2]
    rw [hv.2.2.1, hv.1]
    norm_num [c3Free]

/-- C4: resolveCollision is a no-op when both bodies are static, when the
centers coincide (the oracle contract forces dist = 0 there), or when the
relative velocity along the center-to-center normal is positive; otherwise,
with unit normal components nx, ny, normal relative velocity dvn,
restitution the minimum of the two, and the one-sided total mass (the other
mass when this body is static, this mass when the other is static, the sum
when neither is), the impulse j = -(1+e)dvn/totalMass changes each
non-static body by j times the OTHER mass times the normal, subtracted on
this body and added on the other, while a static body is returned
unchanged. -/
theorem C4_resolveCollision_spec (a b : PBody) (dist : Rat)
    (hd2 : dist * dist = (centerX b - centerX a) * (centerX b - centerX a)
      + (centerY b - centerY a) * (centerY b - centerY a))
    (hd0 : 0 ≤ dist) :
    (a.isStatic = true → b.isStatic = true → resolveCollision a b dist = (a, b)) ∧
    (centerX a = centerX b → centerY a = centerY b → resolveCollision a b dist = (a, b)) ∧
    (∀ nx ny dvn : Rat,
      nx = (centerX b - centerX a) / dist →
      ny = (centerY b - centerY a) / dist →
      dvn = (a.velocityX - b.velocityX) * nx + (a.velocityY - b.velocityY) * ny →
      (dist ≠ 0 → 0 < dvn → resolveCollision a b dist = (a, b)) ∧
      (∀ e tm j : Rat,
        e = min a.restitution b.restitution →
        tm = (if a.isStatic = true then b.mass
              else if b.isStatic = true then a.mass else a.mass + b.mass) →
        j = -(1 + e) * dvn / tm →
        dist ≠ 0 → ¬ 0 < dvn → (a.isStatic = true → b.isStatic = false) →
        (resolveCollision a b dist).1
            = (if a.isStatic = true then a else
                { a with velocityX := a.velocityX - j * b.mass * nx,
                         velocityY := a.velocityY - j * b.mass * ny }) ∧
        (resolveCollision a b dist).2
            = (if b.isStatic = true then b else
                { b with velocityX := b.velocityX + j * a.mass * nx,
                         velocityY := b.velocityY + j * a.mass * ny }))) := by
  refine ⟨?_, ?_, ?_⟩
  · intro ha hb
    simp [resolveCollision, ha, hb]
  · intro hcx hcy
    have hdx : centerX b - centerX a = 0 := by rw [hcx]; ring
    have hdy : centerY b - centerY a = 0 := by rw [hcy]; ring
    have hsq : dist * dist = 0 := by rw [hd2, hdx, hdy]; ring
    have hdist : dist = 0 := mul_self_eq_zero.mp hsq
    by_cases hs : a.isStatic && b.isStatic
    · simp [resolveCollision, hs]
    · simp [resolveCollision, hs, hdist]
  · intro nx ny dvn hnx hny hdvn
    constructor
    · intro hdist hpos
      by_cases hs : a.isStatic && b.isStatic
      · simp [resolveCollision, hs]
      · have hpos1 : 0 < (a.velocityX - b.velocityX) * ((centerX b - centerX a) / dist)
            + (a.velocityY - b.velocityY) * ((centerY b - centerY a) / dist) := by
          rw [hnx, hny] at hdvn
          rw [← hdvn]
          exact hpos
        simp [resolveCollision, hs, hdist, hpos1]
    · intro e tm j he htm hj hdist hneg hnotboth
      subst hnx hny hdvn he hj htm
      by_cases ha : a.isStatic = true
      · have hb : b.isStatic = false := hnotboth ha
        simp [resolveCollision, ha, hb, hdist, hneg]
      · have ha1 : a.isStatic = false := by simpa using ha
        by_cases hb : b.isStatic = true
        · simp [resolveCollision, ha1, hb, hdist, hneg]
        · have hb1 : b.isStatic = false := by simpa using hb
          simp [resolveCollision, ha1, hb1, hdist, hneg]

/-- Witness for C4: the concrete approaching pair takes the impulse branch
and lands on the predicted velocities. -/
theorem C4_resolveCollision_witness :
    (resolveCollision bodyA bodyB 4).1.velocityX = -(9 / 4) ∧
    (resolveCollision bodyA bodyB 4).2.velocityX = 11 / 4 ∧
    (resolveCollision bodyA bodyB 4).1.velocityY = 0 ∧
    (resolveCollision bodyA bodyB 4).2.velocityY = 0 := by
  have h := ((C4_resolveCollision_spec bodyA bodyB 4
      (by norm_num [centerX, centerY, bodyA, bodyB]) (by norm_num)).2.2
      1 0 (-2)
      (by norm_num [centerX, centerY, bodyA, bodyB])
      (by norm_num [centerX, centerY, bodyA, bodyB])
      (by norm_num [bodyA, bodyB])).2
      (1/2) 4 (3/4)
      (by norm_num [bodyA, bodyB])
      (by norm_num [bodyA, bodyB])
      (by norm_num)
      (by norm_num)
      (by norm_num)
      (by simp [bodyA])
  rcases h with ⟨h1, h2⟩
  refine ⟨?_, ?_, ?_, ?_⟩
  · rw [h1]; norm_num [bodyA, bodyB]
  · rw [h2]; norm_num [bodyA, bodyB]
  · rw [h1]; norm_num [bodyA, bodyB]
  · rw [h2]; norm_num [bodyA, bodyB]

/-- C10: for two non-static bodies with distinct centers and non-separating
relative velocity, resolveCollision preserves total momentum on each axis:
the two impulse applications, each weighted by the other mass, cancel
exactly. -/
theorem C10_momentum_conservation (a b : PBody) (dist : Rat)
    (ha : a.isStatic = false) (hb : b.isStatic = false)
    (hc : ¬(centerX a = centerX b ∧ centerY a = centerY b))
    (happ : (a.velocityX - b.velocityX) * ((centerX b - centerX a) / dist)
          + (a.velocityY - b.velocityY) * ((centerY b - centerY a) / dist) ≤ 0) :
    a.mass * (resolveCollision a b dist).1.velocityX
      + b.mass * (resolveCollision a b dist).2.velocityX
      = a.mass * a.velocityX + b.mass * b.velocityX ∧
    a.mass * (resolveCollision a b dist).1.velocityY
      + b.mass * (resolveCollision a b dist).2.velocityY
      = a.mass * a.velocityY + b.mass * b.velocityY := by
  by_cases hd : dist = 0
  · simp [resolveCollision, ha, hb, hd]
  · have hng : ¬ (0 < (a.velocityX - b.velocityX) * ((centerX b - centerX a) / dist)
        + (a.velocityY - b.velocityY) * ((centerY b - centerY a) / dist)) :=
      not_lt.mpr happ
    simp only [resolveCollision, ha, hb, Bool.false_and, Bool.false_eq_true, if_false,
      if_neg hd, if_neg hng]
    constructor <;> ring

/-- Witness for C10: the concrete pair conserves 6 units of x momentum. -/
theorem C10_momentum_witness :
    bodyA.mass * (resolveCollision bodyA bodyB 4).1.velocityX
      + bodyB.mass * (resolveCollision bodyA bodyB 4).2.velocityX
      = bodyA.mass * bodyA.velocityX + bodyB.mass * bodyB.velocityX := by
  exact (C10_momentum_conservation bodyA bodyB 4 rfl rfl
    (by norm_num [centerX, centerY, bodyA, bodyB])
    (by norm_num [centerX, centerY, bodyA, bodyB])).1

end ConvGame

namespace Tetris

/-- C8: rotation is atomic: the rotated shape is committed in place when the
rotated matrix is valid at the current position (x unchanged); otherwise the
kick offsets -1, +1, -2, +2 are tried in exactly that order and the first
that validates is committed together with the rotated shape; when none
validates the state is left completely unchanged. -/
theorem C8_rotate_spec (s : GameState) (p : Piece) (hp : s.currentPiece = some p) :
    (isValidPosition s.board s.width s.height (rotateMatrix p.shape) s.currentX s.currentY = true →
      rotate s = { s with currentPiece := some { p with shape := rotateMatrix p.shape } }) ∧
    (isValidPosition s.board s.width s.height (rotateMatrix p.shape) s.currentX s.currentY = false →
      ((isValidPosition s.board s.width s.height (rotateMatrix p.shape) (s.currentX + -1) s.currentY = true →
          rotate s = { s with currentPiece := some { p with shape := rotateMatrix p.shape },
                              currentX := s.currentX + -1 }) ∧
       (isValidPosition s.board s.width s.height (rotateMatrix p.shape) (s.currentX + -1) s.currentY = false →
        isValidPosition s.board s.width s.height (rotateMatrix p.shape) (s.currentX + 1) s.currentY = true →
          rotate s = { s with currentPiece := some { p with shape := rotateMatrix p.shape },
                              currentX := s.currentX + 1 }) ∧
       (isValidPosition s.board s.width s.height (rotateMatrix p.shape) (s.currentX + -1) s.currentY = false →
        isValidPosition s.board s.width s.height (rotateMatrix p.shape) (s.currentX + 1) s.currentY = false →
        isValidPosition s.board s.width s.height (rotateMatrix p.shape) (s.currentX + -2) s.currentY = true →
          rotate s = { s with currentPiece := some { p with shape := rotateMatrix p.shape },
                              currentX := s.currentX + -2 }) ∧
       (isValidPosition s.board s.width s.height (rotateMatrix p.shape) (s.currentX + -1) s.currentY = false →
        isValidPosition s.board s.width s.height (rotateMatrix p.shape) (s.currentX + 1) s.currentY = false →
        isValidPosition s.board s.width s.height (rotateMatrix p.shape) (s.currentX + -2) s.currentY = false →
        isValidPosition s.board s.width s.height (rotateMatrix p.shape) (s.currentX + 2) s.currentY = true →
          rotate s = { s with currentPiece := some { p with shape := rotateMatrix p.shape },
                              currentX := s.currentX + 2 }) ∧
       (isValidPosition s.board s.width s.height (rotateMatrix p.shape) (s.currentX + -1) s.currentY = false →
        isValidPosition s.board s.width s.height (rotateMatrix p.shape) (s.currentX + 1) s.currentY = false →
        isValidPosition s.board s.width s.height (rotateMatrix p.shape) (s.currentX + -2) s.currentY = false →
        isValidPosition s.board s.width s.height (rotateMatrix p.shape) (s.currentX + 2) s.currentY = false →
          rotate s = s))) := by
  constructor
  · intro h0
    simp [rotate, hp, h0]
  · intro h0
    refine ⟨?_, ?_, ?_, ?_, ?_⟩
    · intro h1
      simp [rotate, hp, h0, kicks, List.find?, h1]
    · intro h1 h2
      simp [rotate, hp, h0, kicks, List.find?, h1, h2]
    · intro h1 h2 h3
      simp [rotate, hp, h0, kicks, List.find?, h1, h2, h3]
    · intro h1 h2 h3 h4
      simp [rotate, hp, h0, kicks, List.find?, h1, h2, h3, h4]
    · intro h1 h2 h3 h4
      simp [rotate, hp, h0, kicks, List.find?, h1, h2, h3, h4]

/-- Witness for C8: the T piece on an empty board rotates in place. -/
theorem C8_rotate_witness :
    rotate rotState
      = { rotState with
          currentPiece := some { pieceT with shape := [[0, 1, 0], [0, 1, 1], [0, 1, 0]] } } := by
  have h := (C8_rotate_spec rotState pieceT rfl).1 (by decide)
  rw [h]
  decide

/-- C9: when the freshly centered piece is not at a valid position, the
spawn sets gameOver, stops the loop and dispatches the game-over event with
the final score, level and lines; and any tick on a game-over state leaves
the state unchanged and dispatches nothing. -/
theorem C9_spawn_failure_spec (s : GameState) (p rp : Piece)
    (hnext : s.nextPiece = some p)
    (hinv : isValidPosition s.board s.width s.height p.shape (spawnX s.width p) 0 = false) :
    (spawnPiece s rp).1.gameOver = true ∧
    (spawnPiece s rp).1.loopRunning = false ∧
    (spawnPiece s rp).2 = [TEvent.gameOver s.score s.level s.lines] ∧
    (∀ (t : GameState) (rt : Piece), t.gameOver = true → tick t rt = (t, [])) := by
  refine ⟨?_, ?_, ?_, ?_⟩
  · simp [spawnPiece, hnext, hinv, endGame]
  · simp [spawnPiece, hnext, hinv, endGame]
  · simp [spawnPiece, hnext, hinv, endGame]
  · intro t rt ht
    simp [tick, ht]

/-- Witness for C9: spawning onto a full 2 by 2 board ends the game and a
tick on the finished state is a no-op. -/
theorem C9_spawn_failure_witness :
    (spawnPiece blockedState pieceO).1.gameOver = true ∧
    (spawnPiece blockedState pieceO).1.loopRunning = false ∧
    (spawnPiece blockedState pieceO).2 = [TEvent.gameOver 7 2 3] ∧
    tick overState pieceO = (overState, []) := by
  have h := C9_spawn_failure_spec blockedState pieceO pieceO rfl (by decide)
  exact ⟨h.1, h.2.1, h.2.2.1, h.2.2.2 overState pieceO rfl⟩

/-- The hard-drop loop counter equals n whenever the first n down-moves are
valid, the next is not, and the fuel exceeds n. -/
theorem dropSteps_eq (board : Board) (width height : Nat)
    (shape : List (List Nat)) (x : Int) :
    ∀ (n : Nat) (y : Int) (fuel : Nat), n < fuel →
      (∀ i : Nat, i < n →
        isValidPosition board width height shape x (y + i + 1) = true) →
      isValidPosition board width height shape x (y + n + 1) = false →
      dropSteps board width height shape x y fuel = n := by
  intro n
  induction n with
  | zero =>
    intro y fuel hf hrun hstop
    cases fuel with
    | zero => omega
    | succ f =>
      have hstop1 : isValidPosition board width height shape x (y + 1) = false := by
        simpa using hstop
      simp [dropSteps, hstop1]
  | succ m ih =>
    intro y fuel hf hrun hstop
    cases fuel with
    | zero => omega
    | succ f =>
      have h0 : isValidPosition board width height shape x (y + 1) = true := by
        simpa using hrun 0 (by omega)
      have hrec : dropSteps board width height shape x (y + 1) f = m := by
        apply ih (y + 1) f (by omega)
        · intro i hi
          have hv := hrun (i + 1) (by omega)
          have heq : y + ((i : Int) + 1) + 1 = y + 1 + i + 1 := by ring
          rw [show ((i + 1 : Nat) : Int) = (i : Int) + 1 by push_cast; ring] at hv
          rw [heq] at hv
          exact hv
        · have heq : y + ((m : Int) + 1) + 1 = y + 1 + m + 1 := by ring
          rw [show ((m + 1 : Nat) : Int) = (m : Int) + 1 by push_cast; ring] at hstop
          rw [heq] at hstop
          exact hstop
      simp [dropSteps, h0, hrec]

/-- C7: clearing k lines (1 to 4) at level L adds lineScores[k] times L to
the score and dispatches the matching score-update event; a hard drop that
advances the piece n cells opens its event stream with a score-update of
delta 2n followed by the piece-lock at the landing row; a successful manual
soft-drop step adds exactly one point while a failed one changes nothing;
and addScore always adds the points and dispatches a score-update carrying
new total, previous total and delta, on every call including zero deltas. -/
theorem C7_scoring_spec (sc sh ss sa : GameState) (p ps r : Piece) (k n pts : Nat)
    (hk : (fullRowIndices sc.board sc.height).length = k)
    (hk1 : 1 ≤ k) (hk4 : k ≤ 4)
    (hp : sh.currentPiece = some p)
    (hrun : ∀ i : Nat, i < n →
      isValidPosition sh.board sh.width sh.height p.shape sh.currentX
        (sh.currentY + i + 1) = true)
    (hstop : isValidPosition sh.board sh.width sh.height p.shape sh.currentX
        (sh.currentY + n + 1) = false)
    (hfuel : n < dropFuel sh p)
    (hps : ss.currentPiece = some ps) :
    ((clearLines sc).1.score = sc.score + lineScores.getD k 0 * sc.level ∧
     TEvent.scoreUpdate (sc.score + lineScores.getD k 0 * sc.level) sc.score
       (lineScores.getD k 0 * sc.level) ∈ (clearLines sc).2) ∧
    ((hardDrop sh r).2.take 2
      = [TEvent.scoreUpdate (sh.score + n * 2) sh.score (n * 2),
         TEvent.pieceLock p.ptype sh.currentX (sh.currentY + n)]) ∧
    ((isValidPosition ss.board ss.width ss.height ps.shape ss.currentX
        (ss.currentY + 1) = true →
      softDrop ss = ({ ss with currentY := ss.currentY + 1, score := ss.score + 1 },
        [TEvent.scoreUpdate (ss.score + 1) ss.score 1])) ∧
     (isValidPosition ss.board ss.width ss.height ps.shape ss.currentX
        (ss.currentY + 1) = false →
      softDrop ss = (ss, []))) ∧
    (addScore sa pts
      = ({ sa with score := sa.score + pts },
         [TEvent.scoreUpdate (sa.score + pts) sa.score pts])) := by
  refine ⟨⟨?_, ?_⟩, ?_, ⟨?_, ?_⟩, rfl⟩
  · have hne : ¬ (k = 0) := by omega
    simp only [clearLines, hk, addScore]
    rw [if_neg hne]
    by_cases hL : sc.linesForNextLevel ≤ sc.lines + k
    · simp [hL, levelUp]
    · simp [hL]
  · have hne : ¬ (k = 0) := by omega
    simp only [clearLines, hk, addScore]
    rw [if_neg hne]
    by_cases hL : sc.linesForNextLevel ≤ sc.lines + k
    · simp [hL, levelUp]
    · simp [hL]
  · have hn : dropSteps sh.board sh.width sh.height p.shape sh.currentX sh.currentY
        (dropFuel sh p) = n :=
      dropSteps_eq sh.board sh.width sh.height p.shape sh.currentX n sh.currentY
        (dropFuel sh p) hfuel hrun hstop
    simp [hardDrop, hp, hn, addScore, lockPiece]
  · intro hv
    simp [softDrop, moveDown, hps, hv, addScore]
  · intro hv
    simp [softDrop, moveDown, hps, hv]

/-- Witness for C7: the double clear scores 300 at level 1, the one-cell
hard drop scores 2 with the lock following, the soft drop scores 1, and
addScore dispatches its event. -/
theorem C7_scoring_witness :
    (clearLines c1State).1.score = 300 ∧
    TEvent.scoreUpdate 300 0 300 ∈ (clearLines c1State).2 ∧
    (hardDrop hardState pieceO).2.take 2
      = [TEvent.scoreUpdate 2 0 2, TEvent.pieceLock "O" 0 1] ∧
    (softDrop hardState).1.score = 1 ∧
    addScore c1State 5 = ({ c1State with score := 5 }, [TEvent.scoreUpdate 5 0 5]) := by
  have h := C7_scoring_spec c1State hardState hardState c1State pieceO pieceO pieceO 2 1 5
    (by decide) (by omega) (by omega) rfl
    (by intro i hi
        have h0 : i = 0 := by omega
        subst h0
        decide)
    (by decide) (by decide) rfl
  refine ⟨?_, ?_, ?_, ?_, ?_⟩
  · simpa [c1State, lineScores] using h.1.1
  · simpa [c1State, lineScores] using h.1.2
  · simpa [hardState, pieceO] using h.2.1
  · have hs := h.2.2.1.1 (by decide)
    rw [hs]
    rfl
  · simpa [c1State] using h.2.2.2

end Tetris
